import Mathlib

set_option linter.unusedVariables false

/-!
Verification of the source-controller core: the `NormalizeURL` helper from
`internal/helm/repository/utils.go` is embedded directly from the Go source;
the managed checkout strategies and the managed SSH transport, whose
implementation is not part of the source tree (only their tests are), are
modelled from the specification.
-/

/- ## Embedding of `NormalizeURL` (internal/helm/repository/utils.go) -/

/-- Membership test for the cutset `"/"` of Go `strings.TrimRight(s, "/")`. -/
def isSlash (c : Char) : Bool := c == '/'

/-- List-of-characters version of Go `strings.TrimRight(s, "/")`: remove every
trailing slash character. -/
def trimRightSlashes (l : List Char) : List Char :=
  (l.reverse.dropWhile isSlash).reverse

/-- Go `strings.TrimRight(s, "/")`. -/
def trimRightSlash (s : String) : String :=
  String.mk (trimRightSlashes s.data)

/-- The constant `helmreg.OCIScheme` from `helm.sh/helm/v3/pkg/registry`. -/
def OCIScheme : String := "oci"

/-- Embeds `NormalizeURL` from `internal/helm/repository/utils.go`.
Go `strings.Contains(u, sub)` is embedded as the decidable relation
`sub.data <:+: u.data` on the character lists. -/
def NormalizeURL (repositoryURL : String) : String :=
  if repositoryURL = "" then ""
  else if OCIScheme.data <:+: repositoryURL.data then trimRightSlash repositoryURL
  else trimRightSlash repositoryURL ++ "/"

/- ## Model of the checkout core (pkg/git and pkg/git/libgit2)

The implementation of the checkout strategies, the concrete-commit
classifier and the managed SSH transport is not part of the source tree;
only `pkg/git/libgit2/managed_test.go` is. The definitions below are
therefore modelled from the specification. -/

/-- Modelled from the spec: the `Commit` record of the data model — reference
name, commit id (content hash) and the concrete flag. The real `git.Commit`
of `pkg/git` is missing from the source tree. -/
structure Commit where
  Reference : String
  Hash : String
  Concrete : Bool
deriving DecidableEq

/-- Modelled from the spec: the concrete-commit classifier, a pure predicate
equal to the commit's concrete flag. The real `git.IsConcreteCommit` is
missing from the source tree. -/
def IsConcreteCommit (c : Commit) : Bool := c.Concrete

/-- Modelled from the spec: the checkout result serialization used by
callers, string form reference-name/commit-id. The real `Commit.String`
method is missing from the source tree. -/
def Commit.string (c : Commit) : String := c.Reference ++ "/" ++ c.Hash

/-- Modelled from the spec: a tag may reference a commit directly
(a lightweight tag) or an annotated tag object; both resolve to the
underlying commit id. -/
inductive TagTarget where
  | lightweight (commitId : String)
  | annotated (tagObjectId : String) (commitId : String)
deriving DecidableEq

/-- Resolution of a tag reference to the underlying commit id. -/
def TagTarget.resolve : TagTarget → String
  | .lightweight c => c
  | .annotated _ c => c

/-- Modelled from the spec: the state of the remote repository as seen by
the Git engine collaborator — branch tips and tag targets by name. -/
structure RemoteRepo where
  branches : List (String × String)
  tags : List (String × TagTarget)
deriving DecidableEq

/-- Modelled from the spec: the working tree materialized in the destination
directory, with the HEAD reference name and the commit it points at. -/
structure WorkingTree where
  headRef : String
  headCommit : String
deriving DecidableEq

/-- Modelled from the spec: the error taxonomy of the checkout core. -/
inductive GitError where
  | referenceNotFound (name : String)
  | authenticationFailed (msg : String)
  | algorithmMismatch (msg : String)
  | hostKeyMismatch
deriving DecidableEq

/-- Modelled from the spec: the branch checkout strategy record
`CheckoutBranch{Branch, LastRevision}`. An empty `LastRevision` stands for
an absent last-known revision. -/
structure CheckoutBranch where
  Branch : String
  LastRevision : String
deriving DecidableEq

/-- Modelled from the spec: the branch `Checkout` operation. The branch tip
is resolved at the remote; if the last-known revision (the string
branch-name/commit-id) matches both the requested name and the current tip,
a minimal fetch yields a symbolic (non-concrete) commit; otherwise a full
clone yields a concrete commit whose id is the freshly read remote tip. In
both cases the destination working tree ends up checked out at the
requested branch; the previous content of the destination is overwritten. -/
def CheckoutBranch.Checkout (s : CheckoutBranch) (remote : RemoteRepo)
    (dest : Option WorkingTree) : Except GitError (Commit × WorkingTree) :=
  match remote.branches.lookup s.Branch with
  | none => .error (.referenceNotFound s.Branch)
  | some tip =>
    if s.LastRevision = s.Branch ++ "/" ++ tip then
      .ok (⟨s.Branch, tip, false⟩, ⟨s.Branch, tip⟩)
    else
      .ok (⟨s.Branch, tip, true⟩, ⟨s.Branch, tip⟩)

/-- Modelled from the spec: the tag checkout strategy record
`CheckoutTag{Tag, LastRevision}`. -/
structure CheckoutTag where
  Tag : String
  LastRevision : String
deriving DecidableEq

/-- Modelled from the spec: the tag `Checkout` operation, identical to the
branch strategy with tag resolution substituted for branch resolution. -/
def CheckoutTag.Checkout (s : CheckoutTag) (remote : RemoteRepo)
    (dest : Option WorkingTree) : Except GitError (Commit × WorkingTree) :=
  match remote.tags.lookup s.Tag with
  | none => .error (.referenceNotFound s.Tag)
  | some target =>
    if s.LastRevision = s.Tag ++ "/" ++ target.resolve then
      .ok (⟨s.Tag, target.resolve, false⟩, ⟨s.Tag, target.resolve⟩)
    else
      .ok (⟨s.Tag, target.resolve, true⟩, ⟨s.Tag, target.resolve⟩)

/- ## Model of the managed SSH transport (pkg/git/libgit2/managed) -/

/-- Modelled from the spec: the SSH key pair types supported by the managed
transport. -/
inductive KeyPairType where
  | RSA_4096
  | ECDSA_P256
  | ECDSA_P384
  | ECDSA_P521
  | ED25519
deriving DecidableEq

/-- Modelled from the spec: a generated key pair — its type and the public
counterpart of the configured identity. -/
structure KeyPair where
  keyType : KeyPairType
  publicKey : String
deriving DecidableEq

/-- Modelled from the spec: a known-hosts host-name field, either plain or
hashed. -/
inductive HostNameEntry where
  | plain (host : String)
  | hashed (digest : String)
deriving DecidableEq

/-- Modelled from the spec: one entry of the known-hosts material — a host
name (plain or hashed), the host-key algorithm and the host key itself. -/
structure KnownHostEntry where
  hostName : HostNameEntry
  keyAlgo : String
  key : String
deriving DecidableEq

/-- Modelled from the spec: the host-key-scanning collaborator — scan a
host's public key given algorithm preferences and a hashing flag. It yields
an entry for the server's host key when the server's algorithm is among the
requested preferences. -/
def ScanHostKey (hashFn : String → String) (host : String)
    (algos : List String) (serverAlgo serverKey : String)
    (hashNames : Bool) : List KnownHostEntry :=
  if algos.contains serverAlgo then
    [⟨if hashNames then .hashed (hashFn host) else .plain host, serverAlgo, serverKey⟩]
  else []

/-- Modelled from the spec: whether one known-hosts entry vouches for the
server's host key, supporting both plain and hashed host-name formats. -/
def knownHostMatches (hashFn : String → String) (host : String)
    (serverAlgo serverKey : String) (e : KnownHostEntry) : Bool :=
  (match e.hostName with
   | .plain h => h == host
   | .hashed d => d == hashFn host)
  && e.keyAlgo == serverAlgo && e.key == serverKey

/-- Modelled from the spec: host-key verification over the known-hosts
material. -/
def verifyHostKey (hashFn : String → String) (host : String)
    (knownHosts : List KnownHostEntry) (serverAlgo serverKey : String) : Bool :=
  knownHosts.any (knownHostMatches hashFn host serverAlgo serverKey)

/-- Modelled from the spec: the list of supported host-key algorithms. -/
def supportedHostKeyAlgos : List String :=
  ["ssh-rsa", "rsa-sha2-256", "rsa-sha2-512", "ecdsa-sha2-nistp256",
   "ecdsa-sha2-nistp384", "ecdsa-sha2-nistp521", "ssh-ed25519"]

/-- Modelled from the spec: the text of the authentication-method-exhausted
error surfaced when the offered public key is not authorized. -/
def authMethodsExhausted : String :=
  "unable to authenticate, attempted methods [none publickey], no supported methods remain"

/-- Renders an algorithm list the way the SSH layer prints offered sets. -/
def renderAlgoList (xs : List String) : String :=
  "[" ++ String.intercalate " " xs ++ "]"

/-- Modelled from the spec: the algorithm-mismatch error text for a failed
key-exchange negotiation, naming both offered sets; the client additionally
offers the ext-info-c extension marker. -/
def kexMismatchMessage (clientKex serverKex : List String) : String :=
  "ssh: no common algorithm for key exchange; client offered: " ++
    renderAlgoList (clientKex ++ ["ext-info-c"]) ++
    ", server offered: " ++ renderAlgoList serverKex

/-- Modelled from the spec: the algorithm-mismatch error text for a host-key
algorithm the client does not accept. -/
def hostKeyAlgoMismatchMessage (clientAlgos : List String) (serverAlgo : String) : String :=
  "ssh: no common algorithm for host key; client offered: " ++
    renderAlgoList clientAlgos ++ ", server offered: " ++ renderAlgoList [serverAlgo]

/-- Modelled from the spec: the per-connection configuration the managed
transport resolves for an SSH session — algorithm restrictions, host-key
material and the authentication identity. -/
structure SSHTransportConfig where
  clientKexAlgos : List String
  serverKexAlgos : List String
  clientHostKeyAlgos : List String
  serverHostKeyAlgo : String
  serverHostKey : String
  knownHosts : List KnownHostEntry
  host : String
  clientKey : KeyPair
  authorizedKeys : List String
deriving DecidableEq

/-- Modelled from the spec: the managed SSH connection sequence — key
exchange negotiation honoring the configured restrictions exactly, host-key
algorithm selection, host-key verification against the known-hosts
material, then public-key authentication, which fails with the
authentication-method-exhausted error when the key is not authorized. -/
def sshConnect (hashFn : String → String) (cfg : SSHTransportConfig) :
    Except GitError Unit :=
  if cfg.clientKexAlgos.any (fun a => cfg.serverKexAlgos.contains a) then
    if cfg.clientHostKeyAlgos.contains cfg.serverHostKeyAlgo then
      if verifyHostKey hashFn cfg.host cfg.knownHosts cfg.serverHostKeyAlgo
          cfg.serverHostKey then
        if cfg.authorizedKeys.contains cfg.clientKey.publicKey then
          .ok ()
        else
          .error (.authenticationFailed
            ("ssh: handshake failed: ssh: " ++ authMethodsExhausted))
      else .error .hostKeyMismatch
    else .error (.algorithmMismatch
      (hostKeyAlgoMismatchMessage cfg.clientHostKeyAlgos cfg.serverHostKeyAlgo))
  else .error (.algorithmMismatch
    (kexMismatchMessage cfg.clientKexAlgos cfg.serverKexAlgos))

/-- Modelled from the spec: a branch checkout carried over the managed SSH
transport — the connection is established first, then the checkout strategy
runs against the remote. -/
def checkoutBranchSSH (hashFn : String → String) (cfg : SSHTransportConfig)
    (s : CheckoutBranch) (remote : RemoteRepo) (dest : Option WorkingTree) :
    Except GitError (Commit × WorkingTree) :=
  match sshConnect hashFn cfg with
  | .error e => .error e
  | .ok _ => s.Checkout remote dest

/- ## Concrete fixtures used by the witnesses -/

/-- A small remote with two branches and two tags, mirroring the test
repository layout. -/
def testRemote : RemoteRepo :=
  ⟨[("main", "abc123"), ("test", "def456")],
   [("tag-1", .lightweight "abc123"), ("tag-2", .annotated "obj1" "abc123")]⟩

/-- An SSH transport configuration fixture over the test server. -/
def mkSSHConfig (clientKex serverKex authorized : List String)
    (kh : List KnownHostEntry) (hkAlgos : List String) (serverAlgo : String) :
    SSHTransportConfig :=
  ⟨clientKex, serverKex, hkAlgos, serverAlgo, "HK", kh, "gitserver",
   ⟨.ED25519, "PK"⟩, authorized⟩

/- ## Supporting lemmas about trailing-slash trimming -/

theorem head_dropWhile_false {α : Type} (p : α → Bool) (l : List α) (a : α)
    (h : (l.dropWhile p).head? = some a) : p a = false := by
  induction l with
  | nil => simp [List.dropWhile] at h
  | cons b t ih =>
    by_cases hb : p b = true
    · rw [List.dropWhile_cons] at h
      simp only [hb, if_true] at h
      exact ih h
    · rw [List.dropWhile_cons, if_neg hb] at h
      simp only [List.head?_cons, Option.some.injEq] at h
      subst h
      cases hpb : p b with
      | false => rfl
      | true => exact absurd hpb hb

theorem dropWhile_dropWhile_self {α : Type} (p : α → Bool) (l : List α) :
    (l.dropWhile p).dropWhile p = l.dropWhile p := by
  cases hd : l.dropWhile p with
  | nil => rfl
  | cons a t =>
    have ha : p a = false := head_dropWhile_false p l a (by rw [hd]; rfl)
    rw [List.dropWhile_cons]
    simp [ha]

theorem trimRightSlashes_trim (l : List Char) :
    trimRightSlashes (trimRightSlashes l) = trimRightSlashes l := by
  unfold trimRightSlashes
  rw [List.reverse_reverse, dropWhile_dropWhile_self]

theorem trimRightSlashes_decomp (l : List Char) :
    ∃ k, l = trimRightSlashes l ++ List.replicate k '/' := by
  refine ⟨(l.reverse.takeWhile isSlash).length, ?_⟩
  have h1 : (l.reverse.takeWhile isSlash).reverse =
      List.replicate (l.reverse.takeWhile isSlash).length '/' := by
    rw [List.eq_replicate_iff]
    refine ⟨by simp, ?_⟩
    intro b hb
    have hmem : b ∈ l.reverse.takeWhile isSlash := List.mem_reverse.mp hb
    have := List.mem_takeWhile_imp hmem
    simpa [isSlash] using this
  have h2 : l = trimRightSlashes l ++ (l.reverse.takeWhile isSlash).reverse := by
    unfold trimRightSlashes
    rw [← List.reverse_append, List.takeWhile_append_dropWhile, List.reverse_reverse]
  exact h2.trans (by rw [h1])

theorem trimRightSlashes_getLast (l : List Char) (a : Char)
    (h : (trimRightSlashes l).getLast? = some a) : a ≠ '/' := by
  unfold trimRightSlashes at h
  rw [List.getLast?_reverse] at h
  have := head_dropWhile_false isSlash l.reverse a h
  simpa [isSlash] using this

theorem slashfree_concat_elim {t l : List Char} {a : Char}
    (h : t <:+: l ++ [a]) (hne : t ≠ []) (ha : a ∉ t) : t <:+: l := by
  obtain ⟨x, y, hxy⟩ := h
  rcases List.eq_nil_or_concat y with rfl | ⟨y2, b, rfl⟩
  · rw [List.append_nil] at hxy
    rcases List.eq_nil_or_concat t with rfl | ⟨t2, c, rfl⟩
    · exact absurd rfl hne
    · rw [List.concat_eq_append, ← List.append_assoc] at hxy
      have h2 := List.append_inj' hxy rfl
      have hc : c = a := by simpa using h2.2
      subst hc
      rw [List.concat_eq_append] at ha
      exact absurd (by simp) ha
  · rw [List.concat_eq_append, ← List.append_assoc] at hxy
    have h2 := List.append_inj' hxy rfl
    exact ⟨x, y2, h2.1⟩

theorem slashfree_replicate_elim {t c : List Char} {n : Nat}
    (h : t <:+: c ++ List.replicate n '/') (hne : t ≠ []) (hs : '/' ∉ t) :
    t <:+: c := by
  induction n with
  | zero => simpa using h
  | succ m ih =>
    rw [List.replicate_succ', ← List.append_assoc] at h
    exact ih (slashfree_concat_elim h hne hs)

theorem slashfree_infix_trim {t l : List Char}
    (h : t <:+: l) (hne : t ≠ []) (hs : '/' ∉ t) : t <:+: trimRightSlashes l := by
  obtain ⟨k, hk⟩ := trimRightSlashes_decomp l
  rw [hk] at h
  exact slashfree_replicate_elim h hne hs

theorem trimRightSlashes_isPart (l : List Char) : trimRightSlashes l <:+: l := by
  obtain ⟨k, hk⟩ := trimRightSlashes_decomp l
  exact ⟨[], List.replicate k '/', by rw [List.nil_append, ← hk]⟩

theorem trimRightSlashes_concat_slash (c : List Char) :
    trimRightSlashes (c ++ ['/']) = trimRightSlashes c := by
  unfold trimRightSlashes
  rw [List.reverse_append]
  simp [List.dropWhile_cons, isSlash]

theorem NormalizeURL_eq_oci (v : String) (h1 : v ≠ "")
    (h2 : OCIScheme.data <:+: v.data) : NormalizeURL v = trimRightSlash v := by
  unfold NormalizeURL
  rw [if_neg h1, if_pos h2]

theorem NormalizeURL_eq_other (v : String) (h1 : v ≠ "")
    (h2 : ¬ OCIScheme.data <:+: v.data) :
    NormalizeURL v = trimRightSlash v ++ "/" := by
  unfold NormalizeURL
  rw [if_neg h1, if_neg h2]

theorem trimRightSlash_data (s : String) :
    (trimRightSlash s).data = trimRightSlashes s.data := rfl

/- ## Claims C9 and C10 -/

/-- C9: `NormalizeURL` maps the empty string to the empty string; a non-empty
URL containing the OCI scheme substring maps to the URL with every trailing
slash removed (the result has no trailing slash); any other non-empty URL maps
to the URL with all trailing slashes removed and exactly one slash appended. -/
theorem NormalizeURL_by_scheme :
    NormalizeURL "" = "" ∧
    (∀ u : String, u ≠ "" → OCIScheme.data <:+: u.data →
      (∃ k, u.data = (NormalizeURL u).data ++ List.replicate k '/') ∧
      ∀ a, (NormalizeURL u).data.getLast? = some a → a ≠ '/') ∧
    (∀ u : String, u ≠ "" → ¬ OCIScheme.data <:+: u.data →
      ∃ k r, u.data = r ++ List.replicate k '/' ∧
        (NormalizeURL u).data = r ++ ['/'] ∧
        ∀ a, r.getLast? = some a → a ≠ '/') := by
  refine ⟨by simp [NormalizeURL], ?_, ?_⟩
  · intro u hne hoci
    have hN : NormalizeURL u = trimRightSlash u := NormalizeURL_eq_oci u hne hoci
    rw [hN]
    constructor
    · obtain ⟨k, hk⟩ := trimRightSlashes_decomp u.data
      exact ⟨k, by rw [trimRightSlash_data]; exact hk⟩
    · intro a ha
      rw [trimRightSlash_data] at ha
      exact trimRightSlashes_getLast u.data a ha
  · intro u hne hoci
    have hN : NormalizeURL u = trimRightSlash u ++ "/" := NormalizeURL_eq_other u hne hoci
    obtain ⟨k, hk⟩ := trimRightSlashes_decomp u.data
    refine ⟨k, trimRightSlashes u.data, hk, ?_,
      fun a ha => trimRightSlashes_getLast u.data a ha⟩
    rw [hN, String.data_append, trimRightSlash_data]

/-- Witness for C9 at two concrete URLs, one per scheme branch. -/
theorem NormalizeURL_by_scheme_witness :
    ((∃ k, ("oci://registry/repo//" : String).data =
        (NormalizeURL "oci://registry/repo//").data ++ List.replicate k '/') ∧
      ∀ a, (NormalizeURL "oci://registry/repo//").data.getLast? = some a → a ≠ '/') ∧
    (∃ k r, ("https://example.com//" : String).data = r ++ List.replicate k '/' ∧
      (NormalizeURL "https://example.com//").data = r ++ ['/'] ∧
      ∀ a, r.getLast? = some a → a ≠ '/') :=
  ⟨NormalizeURL_by_scheme.2.1 "oci://registry/repo//" (by decide) (by decide),
   NormalizeURL_by_scheme.2.2 "https://example.com//" (by decide) (by decide)⟩

/-- C10: `NormalizeURL` is idempotent. -/
theorem NormalizeURL_idem (u : String) :
    NormalizeURL (NormalizeURL u) = NormalizeURL u := by
  by_cases hne : u = ""
  · subst hne
    simp [NormalizeURL]
  by_cases hoci : OCIScheme.data <:+: u.data
  · have hN : NormalizeURL u = trimRightSlash u := NormalizeURL_eq_oci u hne hoci
    have hdata : (NormalizeURL u).data = trimRightSlashes u.data := by
      rw [hN, trimRightSlash_data]
    have hoci2 : OCIScheme.data <:+: (NormalizeURL u).data := by
      rw [hdata]
      exact slashfree_infix_trim hoci (by decide) (by decide)
    have hne2 : NormalizeURL u ≠ "" := by
      intro h0
      rw [h0] at hoci2
      exact absurd (List.infix_nil.mp hoci2) (by decide)
    rw [NormalizeURL_eq_oci (NormalizeURL u) hne2 hoci2, hN]
    apply String.ext
    simp only [trimRightSlash_data]
    exact trimRightSlashes_trim u.data
  · have hN : NormalizeURL u = trimRightSlash u ++ "/" := NormalizeURL_eq_other u hne hoci
    have hdata : (NormalizeURL u).data = trimRightSlashes u.data ++ ['/'] := by
      rw [hN, String.data_append, trimRightSlash_data]
    have hne2 : NormalizeURL u ≠ "" := by
      intro h0
      have hd0 : (NormalizeURL u).data = [] := by rw [h0]
      rw [hdata] at hd0
      simp at hd0
    have hoci2 : ¬ OCIScheme.data <:+: (NormalizeURL u).data := by
      rw [hdata]
      intro h
      have h2 : OCIScheme.data <:+: trimRightSlashes u.data :=
        slashfree_concat_elim h (by decide) (by decide)
      exact hoci (h2.trans (trimRightSlashes_isPart u.data))
    rw [NormalizeURL_eq_other (NormalizeURL u) hne2 hoci2, hN]
    have h3 : trimRightSlash (trimRightSlash u ++ "/") = trimRightSlash u := by
      apply String.ext
      rw [trimRightSlash_data, trimRightSlash_data, String.data_append,
        trimRightSlash_data]
      show trimRightSlashes (trimRightSlashes u.data ++ ['/']) = trimRightSlashes u.data
      rw [trimRightSlashes_concat_slash, trimRightSlashes_trim]
    rw [h3]

/- ## Inversion and helper lemmas for the checkout model -/

theorem revision_suffix_ne {b c t : String} (h : c ≠ t) :
    b ++ "/" ++ c ≠ b ++ "/" ++ t := by
  intro he
  apply h
  apply String.ext
  have hd := congrArg String.data he
  rw [String.data_append, String.data_append, String.data_append,
    String.data_append] at hd
  exact List.append_cancel_left hd

theorem checkoutBranch_ok_inv {s : CheckoutBranch} {remote : RemoteRepo}
    {dest : Option WorkingTree} {c : Commit} {d : WorkingTree}
    (h : s.Checkout remote dest = .ok (c, d)) :
    ∃ tip, remote.branches.lookup s.Branch = some tip ∧
      c.Reference = s.Branch ∧ c.Hash = tip ∧ d = ⟨s.Branch, tip⟩ ∧
      (c.Concrete = false ↔ s.LastRevision = s.Branch ++ "/" ++ tip) := by
  unfold CheckoutBranch.Checkout at h
  split at h
  · exact Except.noConfusion h
  · next tip hl =>
    split at h
    · next hrev =>
      simp only [Except.ok.injEq, Prod.mk.injEq] at h
      obtain ⟨hc, hd⟩ := h
      subst hc
      subst hd
      exact ⟨tip, hl, rfl, rfl, rfl, by simp [hrev]⟩
    · next hrev =>
      simp only [Except.ok.injEq, Prod.mk.injEq] at h
      obtain ⟨hc, hd⟩ := h
      subst hc
      subst hd
      exact ⟨tip, hl, rfl, rfl, rfl, by simp [hrev]⟩

theorem checkoutTag_ok_inv {s : CheckoutTag} {remote : RemoteRepo}
    {dest : Option WorkingTree} {c : Commit} {d : WorkingTree}
    (h : s.Checkout remote dest = .ok (c, d)) :
    ∃ target, remote.tags.lookup s.Tag = some target ∧
      c.Reference = s.Tag ∧ c.Hash = target.resolve ∧
      d = ⟨s.Tag, target.resolve⟩ ∧
      (c.Concrete = false ↔ s.LastRevision = s.Tag ++ "/" ++ target.resolve) := by
  unfold CheckoutTag.Checkout at h
  split at h
  · exact Except.noConfusion h
  · next target hl =>
    split at h
    · next hrev =>
      simp only [Except.ok.injEq, Prod.mk.injEq] at h
      obtain ⟨hc, hd⟩ := h
      subst hc
      subst hd
      exact ⟨target, hl, rfl, rfl, rfl, by simp [hrev]⟩
    · next hrev =>
      simp only [Except.ok.injEq, Prod.mk.injEq] at h
      obtain ⟨hc, hd⟩ := h
      subst hc
      subst hd
      exact ⟨target, hl, rfl, rfl, rfl, by simp [hrev]⟩

theorem checkoutBranch_ok_exists (s : CheckoutBranch) (remote : RemoteRepo)
    (dest : Option WorkingTree) (tip : String)
    (htip : remote.branches.lookup s.Branch = some tip) :
    ∃ c d, s.Checkout remote dest = .ok (c, d) ∧
      c.Reference = s.Branch ∧ c.Hash = tip ∧ d = ⟨s.Branch, tip⟩ := by
  by_cases hrev : s.LastRevision = s.Branch ++ "/" ++ tip
  · exact ⟨⟨s.Branch, tip, false⟩, ⟨s.Branch, tip⟩,
      by simp [CheckoutBranch.Checkout, htip, hrev], rfl, rfl, rfl⟩
  · exact ⟨⟨s.Branch, tip, true⟩, ⟨s.Branch, tip⟩,
      by simp [CheckoutBranch.Checkout, htip, hrev], rfl, rfl, rfl⟩

/- ## Claims C1, C2, C3, C7 and C8 -/

/-- C1: a branch checkout whose last-known revision string equals
branch-name/current-tip-id succeeds and returns a commit whose id equals
the current tip and for which the concrete-commit classifier returns
false. -/
theorem checkoutBranch_noop_symbolic (remote : RemoteRepo)
    (branchName tip : String) (dest : Option WorkingTree)
    (htip : remote.branches.lookup branchName = some tip) :
    ∃ c d, CheckoutBranch.Checkout ⟨branchName, branchName ++ "/" ++ tip⟩
        remote dest = .ok (c, d) ∧
      c.Hash = tip ∧ IsConcreteCommit c = false := by
  refine ⟨⟨branchName, tip, false⟩, ⟨branchName, tip⟩, ?_, rfl, rfl⟩
  simp [CheckoutBranch.Checkout, htip]

/-- Witness for C1 on the concrete test remote. -/
theorem checkoutBranch_noop_symbolic_witness :
    ∃ c d, CheckoutBranch.Checkout ⟨"main", "main" ++ "/" ++ "abc123"⟩
        testRemote none = .ok (c, d) ∧
      c.Hash = "abc123" ∧ IsConcreteCommit c = false :=
  checkoutBranch_noop_symbolic testRemote "main" "abc123" none (by decide)

/-- C2: a branch checkout whose last-known revision has a matching branch
name but a commit id different from the remote tip performs a full clone
and returns a concrete commit whose id is the true current tip. -/
theorem checkoutBranch_stale_concrete (remote : RemoteRepo)
    (branchName cid tip : String) (dest : Option WorkingTree)
    (htip : remote.branches.lookup branchName = some tip)
    (hne : cid ≠ tip) :
    ∃ c d, CheckoutBranch.Checkout ⟨branchName, branchName ++ "/" ++ cid⟩
        remote dest = .ok (c, d) ∧
      c.Hash = tip ∧ IsConcreteCommit c = true := by
  refine ⟨⟨branchName, tip, true⟩, ⟨branchName, tip⟩, ?_, rfl, rfl⟩
  have hrev : branchName ++ "/" ++ cid ≠ branchName ++ "/" ++ tip :=
    revision_suffix_ne hne
  simp [CheckoutBranch.Checkout, htip, hrev]

/-- Witness for C2 on the concrete test remote with a fabricated commit. -/
theorem checkoutBranch_stale_concrete_witness :
    ∃ c d, CheckoutBranch.Checkout
        ⟨"main", "main" ++ "/" ++ "non-existent-commit"⟩ testRemote none
        = .ok (c, d) ∧
      c.Hash = "abc123" ∧ IsConcreteCommit c = true :=
  checkoutBranch_stale_concrete testRemote "main" "non-existent-commit"
    "abc123" none (by decide) (by decide)

/-- C3: the tag strategy satisfies the same contract as the branch
strategy: a non-matching (or absent) last-known revision yields a concrete
commit resolving the tag to its underlying commit id, and a last-known
revision equal to tag-name/current-commit-id yields the same id marked
non-concrete. -/
theorem checkoutTag_contract :
    (∀ (remote : RemoteRepo) (tagName : String) (target : TagTarget)
        (lastRev : String) (dest : Option WorkingTree),
      remote.tags.lookup tagName = some target →
      lastRev ≠ tagName ++ "/" ++ target.resolve →
      ∃ c d, CheckoutTag.Checkout ⟨tagName, lastRev⟩ remote dest = .ok (c, d) ∧
        c.Hash = target.resolve ∧ IsConcreteCommit c = true) ∧
    (∀ (remote : RemoteRepo) (tagName : String) (target : TagTarget)
        (dest : Option WorkingTree),
      remote.tags.lookup tagName = some target →
      ∃ c d, CheckoutTag.Checkout ⟨tagName, tagName ++ "/" ++ target.resolve⟩
          remote dest = .ok (c, d) ∧
        c.Hash = target.resolve ∧ IsConcreteCommit c = false) := by
  constructor
  · intro remote tagName target lastRev dest htag hrev
    refine ⟨⟨tagName, target.resolve, true⟩, ⟨tagName, target.resolve⟩, ?_, rfl, rfl⟩
    simp [CheckoutTag.Checkout, htag, hrev]
  · intro remote tagName target dest htag
    refine ⟨⟨tagName, target.resolve, false⟩, ⟨tagName, target.resolve⟩, ?_, rfl, rfl⟩
    simp [CheckoutTag.Checkout, htag]

/-- Witness for C3 on the concrete test remote, covering a lightweight tag
with no last-known revision and an annotated tag with a matching one. -/
theorem checkoutTag_contract_witness :
    (∃ c d, CheckoutTag.Checkout ⟨"tag-1", ""⟩ testRemote none = .ok (c, d) ∧
      c.Hash = (TagTarget.lightweight "abc123").resolve ∧
      IsConcreteCommit c = true) ∧
    (∃ c d, CheckoutTag.Checkout
        ⟨"tag-2", "tag-2" ++ "/" ++ (TagTarget.annotated "obj1" "abc123").resolve⟩
        testRemote none = .ok (c, d) ∧
      c.Hash = (TagTarget.annotated "obj1" "abc123").resolve ∧
      IsConcreteCommit c = false) :=
  ⟨checkoutTag_contract.1 testRemote "tag-1" (.lightweight "abc123") "" none
      (by decide) (by decide),
   checkoutTag_contract.2 testRemote "tag-2" (.annotated "obj1" "abc123") none
      (by decide)⟩

/-- C7: reusing the destination across two branch checkouts with different
Branch values leaves the working tree HEAD at the newly requested branch
after the second checkout. -/
theorem checkoutBranch_switch (remote : RemoteRepo) (s1 s2 : CheckoutBranch)
    (dest0 : Option WorkingTree) (c1 : Commit) (d1 : WorkingTree)
    (c2 : Commit) (d2 : WorkingTree)
    (hne : s1.Branch ≠ s2.Branch)
    (h1 : s1.Checkout remote dest0 = .ok (c1, d1))
    (h2 : s2.Checkout remote (some d1) = .ok (c2, d2)) :
    d2.headRef = s2.Branch ∧ d1.headRef = s1.Branch := by
  obtain ⟨t1, _, _, _, hd1, _⟩ := checkoutBranch_ok_inv h1
  obtain ⟨t2, _, _, _, hd2, _⟩ := checkoutBranch_ok_inv h2
  subst hd1
  subst hd2
  exact ⟨rfl, rfl⟩

/-- Witness for C7: checking out main and then test into the same
destination ends with HEAD on test. -/
theorem checkoutBranch_switch_witness :
    (⟨"test", "def456"⟩ : WorkingTree).headRef = "test" ∧
    (⟨"main", "abc123"⟩ : WorkingTree).headRef = "main" :=
  checkoutBranch_switch testRemote ⟨"main", ""⟩ ⟨"test", ""⟩ none
    ⟨"main", "abc123", true⟩ ⟨"main", "abc123"⟩
    ⟨"test", "def456", true⟩ ⟨"test", "def456"⟩
    (by decide) rfl rfl

/-- C8: every successful checkout, branch or tag, serializes as
reference-name/commit-id where the reference name is the requested branch
or tag and the commit id is the resolved tip. -/
theorem checkout_string_form :
    (∀ (s : CheckoutBranch) (remote : RemoteRepo) (dest : Option WorkingTree)
        (c : Commit) (d : WorkingTree),
      CheckoutBranch.Checkout s remote dest = .ok (c, d) →
      ∃ tip, remote.branches.lookup s.Branch = some tip ∧ c.Hash = tip ∧
        Commit.string c = s.Branch ++ "/" ++ tip) ∧
    (∀ (s : CheckoutTag) (remote : RemoteRepo) (dest : Option WorkingTree)
        (c : Commit) (d : WorkingTree),
      CheckoutTag.Checkout s remote dest = .ok (c, d) →
      ∃ target, remote.tags.lookup s.Tag = some target ∧
        c.Hash = target.resolve ∧
        Commit.string c = s.Tag ++ "/" ++ target.resolve) := by
  constructor
  · intro s remote dest c d h
    obtain ⟨tip, hl, href, hhash, _, _⟩ := checkoutBranch_ok_inv h
    refine ⟨tip, hl, hhash, ?_⟩
    unfold Commit.string
    rw [href, hhash]
  · intro s remote dest c d h
    obtain ⟨target, hl, href, hhash, _, _⟩ := checkoutTag_ok_inv h
    refine ⟨target, hl, hhash, ?_⟩
    unfold Commit.string
    rw [href, hhash]

/-- Witness for C8 on concrete branch and tag checkouts. -/
theorem checkout_string_form_witness :
    (∃ tip, testRemote.branches.lookup "main" = some tip ∧
      (⟨"main", "abc123", true⟩ : Commit).Hash = tip ∧
      Commit.string ⟨"main", "abc123", true⟩ = "main" ++ "/" ++ tip) ∧
    (∃ target, testRemote.tags.lookup "tag-1" = some target ∧
      (⟨"tag-1", "abc123", true⟩ : Commit).Hash = target.resolve ∧
      Commit.string ⟨"tag-1", "abc123", true⟩ = "tag-1" ++ "/" ++ target.resolve) :=
  ⟨checkout_string_form.1 ⟨"main", ""⟩ testRemote none
      ⟨"main", "abc123", true⟩ ⟨"main", "abc123"⟩ rfl,
   checkout_string_form.2 ⟨"tag-1", ""⟩ testRemote none
      ⟨"tag-1", "abc123", true⟩ ⟨"tag-1", "abc123"⟩ rfl⟩

/- ## Helper lemmas for the SSH transport model -/

theorem data_part_left (a b : String) : a.data <:+: (a ++ b).data :=
  ⟨[], b.data, by rw [List.nil_append, String.data_append]⟩

theorem data_part_right (a b : String) : b.data <:+: (a ++ b).data :=
  ⟨a.data, [], by rw [List.append_nil, String.data_append]⟩

theorem sshConnect_ok (hashFn : String → String) (cfg : SSHTransportConfig)
    (hkex : cfg.clientKexAlgos.any (fun a => cfg.serverKexAlgos.contains a) = true)
    (hhka : cfg.clientHostKeyAlgos.contains cfg.serverHostKeyAlgo = true)
    (hhk : verifyHostKey hashFn cfg.host cfg.knownHosts cfg.serverHostKeyAlgo
      cfg.serverHostKey = true)
    (hauth : cfg.authorizedKeys.contains cfg.clientKey.publicKey = true) :
    sshConnect hashFn cfg = .ok () := by
  unfold sshConnect
  rw [if_pos hkex, if_pos hhka, if_pos hhk, if_pos hauth]

theorem sshConnect_authFailed (hashFn : String → String) (cfg : SSHTransportConfig)
    (hkex : cfg.clientKexAlgos.any (fun a => cfg.serverKexAlgos.contains a) = true)
    (hhka : cfg.clientHostKeyAlgos.contains cfg.serverHostKeyAlgo = true)
    (hhk : verifyHostKey hashFn cfg.host cfg.knownHosts cfg.serverHostKeyAlgo
      cfg.serverHostKey = true)
    (hauth : cfg.authorizedKeys.contains cfg.clientKey.publicKey = false) :
    sshConnect hashFn cfg = .error (.authenticationFailed
      ("ssh: handshake failed: ssh: " ++ authMethodsExhausted)) := by
  unfold sshConnect
  rw [if_pos hkex, if_pos hhka, if_pos hhk,
    if_neg (by rw [hauth]; exact Bool.false_ne_true)]

theorem sshConnect_kexMismatch (hashFn : String → String) (cfg : SSHTransportConfig)
    (hkex : cfg.clientKexAlgos.any (fun a => cfg.serverKexAlgos.contains a) = false) :
    sshConnect hashFn cfg = .error (.algorithmMismatch
      (kexMismatchMessage cfg.clientKexAlgos cfg.serverKexAlgos)) := by
  unfold sshConnect
  rw [if_neg (by rw [hkex]; exact Bool.false_ne_true)]

/- ## Claims C4, C5 and C6 -/

/-- C4: for every supported SSH key type, a checkout over the managed
transport succeeds and materializes the working tree when the client's
public key is authorized on the server, and fails with an
authentication-method-exhausted error message when it is not. -/
theorem sshCheckout_keyTypes (hashFn : String → String)
    (cfg : SSHTransportConfig) (s : CheckoutBranch) (remote : RemoteRepo)
    (dest : Option WorkingTree) (kt : KeyPairType) (tip : String)
    (hkt : cfg.clientKey.keyType = kt)
    (hkex : cfg.clientKexAlgos.any (fun a => cfg.serverKexAlgos.contains a) = true)
    (hhka : cfg.clientHostKeyAlgos.contains cfg.serverHostKeyAlgo = true)
    (hhk : verifyHostKey hashFn cfg.host cfg.knownHosts cfg.serverHostKeyAlgo
      cfg.serverHostKey = true)
    (htip : remote.branches.lookup s.Branch = some tip) :
    (cfg.authorizedKeys.contains cfg.clientKey.publicKey = true →
      ∃ c d, checkoutBranchSSH hashFn cfg s remote dest = .ok (c, d) ∧
        d.headRef = s.Branch ∧ d.headCommit = tip) ∧
    (cfg.authorizedKeys.contains cfg.clientKey.publicKey = false →
      ∃ msg, checkoutBranchSSH hashFn cfg s remote dest
          = .error (.authenticationFailed msg) ∧
        authMethodsExhausted.data <:+: msg.data) := by
  constructor
  · intro hauth
    obtain ⟨c, d, hck, _, _, hd⟩ := checkoutBranch_ok_exists s remote dest tip htip
    refine ⟨c, d, ?_, ?_, ?_⟩
    · unfold checkoutBranchSSH
      rw [sshConnect_ok hashFn cfg hkex hhka hhk hauth]
      exact hck
    · rw [hd]
    · rw [hd]
  · intro hauth
    refine ⟨"ssh: handshake failed: ssh: " ++ authMethodsExhausted, ?_,
      data_part_right _ _⟩
    unfold checkoutBranchSSH
    rw [sshConnect_authFailed hashFn cfg hkex hhka hhk hauth]

/-- Witness for C4: an ED25519 checkout at the test server, once with the
key authorized and once with an empty authorized-keys set. -/
theorem sshCheckout_keyTypes_witness :
    (∃ c d, checkoutBranchSSH id
        (mkSSHConfig ["curve25519-sha256"] ["curve25519-sha256"] ["PK"]
          [⟨.plain "gitserver", "ssh-ed25519", "HK"⟩] ["ssh-ed25519"] "ssh-ed25519")
        ⟨"main", ""⟩ testRemote none = .ok (c, d) ∧
      d.headRef = "main" ∧ d.headCommit = "abc123") ∧
    (∃ msg, checkoutBranchSSH id
        (mkSSHConfig ["curve25519-sha256"] ["curve25519-sha256"] []
          [⟨.plain "gitserver", "ssh-ed25519", "HK"⟩] ["ssh-ed25519"] "ssh-ed25519")
        ⟨"main", ""⟩ testRemote none = .error (.authenticationFailed msg) ∧
      authMethodsExhausted.data <:+: msg.data) :=
  ⟨(sshCheckout_keyTypes id
      (mkSSHConfig ["curve25519-sha256"] ["curve25519-sha256"] ["PK"]
        [⟨.plain "gitserver", "ssh-ed25519", "HK"⟩] ["ssh-ed25519"] "ssh-ed25519")
      ⟨"main", ""⟩ testRemote none .ED25519 "abc123" rfl (by decide) (by decide)
      (by decide) (by decide)).1 (by decide),
   (sshCheckout_keyTypes id
      (mkSSHConfig ["curve25519-sha256"] ["curve25519-sha256"] []
        [⟨.plain "gitserver", "ssh-ed25519", "HK"⟩] ["ssh-ed25519"] "ssh-ed25519")
      ⟨"main", ""⟩ testRemote none .ED25519 "abc123" rfl (by decide) (by decide)
      (by decide) (by decide)).2 (by decide)⟩

/-- C5: a checkout over the managed SSH transport succeeds when client and
server share at least one key-exchange algorithm, and fails with an
algorithm-mismatch error naming both offered sets when they are
disjoint. -/
theorem sshCheckout_kexAlgos (hashFn : String → String)
    (cfg : SSHTransportConfig) (s : CheckoutBranch) (remote : RemoteRepo)
    (dest : Option WorkingTree) (tip : String)
    (hhka : cfg.clientHostKeyAlgos.contains cfg.serverHostKeyAlgo = true)
    (hhk : verifyHostKey hashFn cfg.host cfg.knownHosts cfg.serverHostKeyAlgo
      cfg.serverHostKey = true)
    (hauth : cfg.authorizedKeys.contains cfg.clientKey.publicKey = true)
    (htip : remote.branches.lookup s.Branch = some tip) :
    ((∃ a, a ∈ cfg.clientKexAlgos ∧ a ∈ cfg.serverKexAlgos) →
      ∃ c d, checkoutBranchSSH hashFn cfg s remote dest = .ok (c, d)) ∧
    ((∀ a ∈ cfg.clientKexAlgos, a ∉ cfg.serverKexAlgos) →
      ∃ msg, checkoutBranchSSH hashFn cfg s remote dest
          = .error (.algorithmMismatch msg) ∧
        (renderAlgoList (cfg.clientKexAlgos ++ ["ext-info-c"])).data <:+: msg.data ∧
        (renderAlgoList cfg.serverKexAlgos).data <:+: msg.data) := by
  constructor
  · intro hshared
    have hkex : cfg.clientKexAlgos.any
        (fun a => cfg.serverKexAlgos.contains a) = true := by
      obtain ⟨a, ha1, ha2⟩ := hshared
      rw [List.any_eq_true]
      exact ⟨a, ha1, by simpa using ha2⟩
    obtain ⟨c, d, hck, _, _, _⟩ := checkoutBranch_ok_exists s remote dest tip htip
    refine ⟨c, d, ?_⟩
    unfold checkoutBranchSSH
    rw [sshConnect_ok hashFn cfg hkex hhka hhk hauth]
    exact hck
  · intro hdisj
    have hkex : cfg.clientKexAlgos.any
        (fun a => cfg.serverKexAlgos.contains a) = false := by
      cases hv : cfg.clientKexAlgos.any (fun a => cfg.serverKexAlgos.contains a) with
      | false => rfl
      | true =>
        rw [List.any_eq_true] at hv
        obtain ⟨a, ha, hc⟩ := hv
        exact absurd (by simpa using hc) (hdisj a ha)
    refine ⟨kexMismatchMessage cfg.clientKexAlgos cfg.serverKexAlgos, ?_, ?_, ?_⟩
    · unfold checkoutBranchSSH
      rw [sshConnect_kexMismatch hashFn cfg hkex]
    · unfold kexMismatchMessage
      exact ((data_part_right _ _).trans (data_part_left _ _)).trans
        (data_part_left _ _)
    · unfold kexMismatchMessage
      exact data_part_right _ _

/-- Witness for C5: a shared curve25519-sha256 exchange succeeds; the
disjoint pair from the test table fails naming both sets. -/
theorem sshCheckout_kexAlgos_witness :
    (∃ c d, checkoutBranchSSH id
        (mkSSHConfig ["curve25519-sha256"] ["curve25519-sha256"] ["PK"]
          [⟨.plain "gitserver", "ssh-ed25519", "HK"⟩] ["ssh-ed25519"] "ssh-ed25519")
        ⟨"main", ""⟩ testRemote none = .ok (c, d)) ∧
    (∃ msg, checkoutBranchSSH id
        (mkSSHConfig ["ecdh-sha2-nistp521"] ["curve25519-sha256@libssh.org"] ["PK"]
          [⟨.plain "gitserver", "ssh-ed25519", "HK"⟩] ["ssh-ed25519"] "ssh-ed25519")
        ⟨"main", ""⟩ testRemote none = .error (.algorithmMismatch msg) ∧
      (renderAlgoList (["ecdh-sha2-nistp521"] ++ ["ext-info-c"])).data <:+: msg.data ∧
      (renderAlgoList ["curve25519-sha256@libssh.org"]).data <:+: msg.data) :=
  ⟨(sshCheckout_kexAlgos id
      (mkSSHConfig ["curve25519-sha256"] ["curve25519-sha256"] ["PK"]
        [⟨.plain "gitserver", "ssh-ed25519", "HK"⟩] ["ssh-ed25519"] "ssh-ed25519")
      ⟨"main", ""⟩ testRemote none "abc123" (by decide) (by decide) (by decide)
      (by decide)).1 ⟨"curve25519-sha256", by decide, by decide⟩,
   (sshCheckout_kexAlgos id
      (mkSSHConfig ["ecdh-sha2-nistp521"] ["curve25519-sha256@libssh.org"] ["PK"]
        [⟨.plain "gitserver", "ssh-ed25519", "HK"⟩] ["ssh-ed25519"] "ssh-ed25519")
      ⟨"main", ""⟩ testRemote none "abc123" (by decide) (by decide) (by decide)
      (by decide)).2 (by decide)⟩

/-- C6: for every supported host-key algorithm, in both plain and hashed
known-hosts host-name formats, a checkout over the managed SSH transport
succeeds when the scanned host key matches the server's host key. -/
theorem sshCheckout_hostKeyAlgos (hashFn : String → String)
    (cfg : SSHTransportConfig) (s : CheckoutBranch) (remote : RemoteRepo)
    (dest : Option WorkingTree) (algo tip : String) (hashNames : Bool)
    (hsup : algo ∈ supportedHostKeyAlgos)
    (hsa : cfg.serverHostKeyAlgo = algo)
    (hca : cfg.clientHostKeyAlgos = [algo])
    (hkh : cfg.knownHosts = ScanHostKey hashFn cfg.host [algo] algo
      cfg.serverHostKey hashNames)
    (hkex : cfg.clientKexAlgos.any (fun a => cfg.serverKexAlgos.contains a) = true)
    (hauth : cfg.authorizedKeys.contains cfg.clientKey.publicKey = true)
    (htip : remote.branches.lookup s.Branch = some tip) :
    ∃ c d, checkoutBranchSSH hashFn cfg s remote dest = .ok (c, d) := by
  have hhka : cfg.clientHostKeyAlgos.contains cfg.serverHostKeyAlgo = true := by
    rw [hca, hsa]
    simp
  have hhk : verifyHostKey hashFn cfg.host cfg.knownHosts cfg.serverHostKeyAlgo
      cfg.serverHostKey = true := by
    rw [hkh, hsa]
    cases hashNames with
    | false => simp [ScanHostKey, verifyHostKey, knownHostMatches]
    | true => simp [ScanHostKey, verifyHostKey, knownHostMatches]
  obtain ⟨c, d, hck, _, _, _⟩ := checkoutBranch_ok_exists s remote dest tip htip
  refine ⟨c, d, ?_⟩
  unfold checkoutBranchSSH
  rw [sshConnect_ok hashFn cfg hkex hhka hhk hauth]
  exact hck

/-- Witness for C6: an ssh-ed25519 host key scanned in hashed form. -/
theorem sshCheckout_hostKeyAlgos_witness :
    ∃ c d, checkoutBranchSSH id
        (mkSSHConfig ["curve25519-sha256"] ["curve25519-sha256"] ["PK"]
          (ScanHostKey id "gitserver" ["ssh-ed25519"] "ssh-ed25519" "HK" true)
          ["ssh-ed25519"] "ssh-ed25519")
        ⟨"main", ""⟩ testRemote none = .ok (c, d) :=
  sshCheckout_hostKeyAlgos id
    (mkSSHConfig ["curve25519-sha256"] ["curve25519-sha256"] ["PK"]
      (ScanHostKey id "gitserver" ["ssh-ed25519"] "ssh-ed25519" "HK" true)
      ["ssh-ed25519"] "ssh-ed25519")
    ⟨"main", ""⟩ testRemote none "ssh-ed25519" "abc123" true (by decide) rfl rfl
    rfl (by decide) (by decide) (by decide)
